import Mathlib

/-!
Shallow embedding of the pngme chunk codec (src/chunk.rs, src/chunk_type.rs).

Bytes are modelled as `Nat` (with `< 256` hypotheses where byte-ness matters),
byte buffers as `List Nat`, `u32` values as `Nat` with an explicit `% 2^32`
where the Rust code casts (`as u32`).  Fallible Rust constructors
(`TryFrom`, `FromStr`) become `Except`-valued functions whose error
constructors name the spec's error kinds.
-/

set_option maxRecDepth 100000

namespace Pngme

/-- `u32::from_be_bytes([b0,b1,b2,b3])` for bytes `b0..b3`. -/
def u32FromBE (b0 b1 b2 b3 : Nat) : Nat :=
  b0 * 16777216 + b1 * 65536 + b2 * 256 + b3

/-- `u32::to_be_bytes` of a value `n < 2^32`: its four base-256 digits, most
significant first. -/
def u32ToBE (n : Nat) : List Nat :=
  [n / 16777216 % 256, n / 65536 % 256, n / 256 % 256, n % 256]

/-- `u8::is_ascii_uppercase`: byte in `b'A'..=b'Z'`. -/
def isAsciiUppercase (b : Nat) : Bool :=
  65 ≤ b && b ≤ 90

/-- `u8::is_ascii_lowercase`: byte in `b'a'..=b'z'`. -/
def isAsciiLowercase (b : Nat) : Bool :=
  97 ≤ b && b ≤ 122

/-- `u8::is_ascii_alphabetic`: uppercase or lowercase ASCII letter. -/
def isAsciiAlphabetic (b : Nat) : Bool :=
  isAsciiUppercase b || isAsciiLowercase b

/-!
## CRC-32/ISO-HDLC (the `crc` crate's `CRC_32_ISO_HDLC` algorithm)

Polynomial 0x04C11DB7 reflected (0xEDB88320), init 0xFFFFFFFF, input and
output reflected, final xor 0xFFFFFFFF — i.e. the zlib/PNG CRC-32.  Embedded
bit-at-a-time in its standard reflected form, which computes the same
function as the crate's table-driven implementation.
-/

/-- One bit-step of the reflected CRC-32: shift right, conditionally xor the
reflected polynomial. -/
def crc32Round (c : Nat) : Nat :=
  if c % 2 = 1 then (c >>> 1) ^^^ 0xEDB88320 else c >>> 1

/-- Fold one input byte into the running CRC state (8 bit-steps). -/
def crc32UpdateByte (c b : Nat) : Nat :=
  crc32Round (crc32Round (crc32Round (crc32Round
    (crc32Round (crc32Round (crc32Round (crc32Round (c ^^^ b))))))))

/-- `Crc::<u32>::new(&CRC_32_ISO_HDLC).checksum(data)`. -/
def crc32 (data : List Nat) : Nat :=
  (data.foldl crc32UpdateByte 0xFFFFFFFF) ^^^ 0xFFFFFFFF

/-!
## `ChunkType` (src/chunk_type.rs)
-/

/-- The `ChunkType` struct: four tag bytes (`bytes: [u8; 4]`). -/
structure ChunkType where
  b0 : Nat
  b1 : Nat
  b2 : Nat
  b3 : Nat
deriving DecidableEq, Repr

/-- Error kinds of the fallible `ChunkType` constructors: `invalidTag` for the
`bail!("ChunkType: bytes must be ASCII alphabetic")` branch of `try_from`,
`invalidLength` for `from_str`'s "chunk type string must be 4 bytes long". -/
inductive TagError where
  | invalidTag
  | invalidLength
deriving DecidableEq, Repr

/-- `is_bytes_ascii_alphabetic`: the source's loop with a result flag that is
cleared whenever a non-alphabetic byte is seen. -/
def is_bytes_ascii_alphabetic (bytes : List Nat) : Bool :=
  bytes.foldl (fun res byte => if !(isAsciiAlphabetic byte) then false else res) true

/-- `ChunkType::bytes()` accessor, as the 4-element byte list. -/
def ChunkType.bytes (t : ChunkType) : List Nat :=
  [t.b0, t.b1, t.b2, t.b3]

/-- `impl TryFrom<[u8; 4]> for ChunkType`. -/
def ChunkType.tryFrom (b0 b1 b2 b3 : Nat) : Except TagError ChunkType :=
  if !(is_bytes_ascii_alphabetic [b0, b1, b2, b3]) then .error .invalidTag
  else .ok ⟨b0, b1, b2, b3⟩

/-- `impl FromStr for ChunkType`: the 4-byte length check, then `try_from`. -/
def ChunkType.fromStr (s : List Nat) : Except TagError ChunkType :=
  match s with
  | [b0, b1, b2, b3] => ChunkType.tryFrom b0 b1 b2 b3
  | _ => .error .invalidLength

/-- `ChunkType::is_critical`: byte 0 is ASCII uppercase. -/
def ChunkType.is_critical (t : ChunkType) : Bool :=
  isAsciiUppercase t.b0

/-- `ChunkType::is_public`: byte 1 is ASCII uppercase. -/
def ChunkType.is_public (t : ChunkType) : Bool :=
  isAsciiUppercase t.b1

/-- `ChunkType::is_reserved_bit_valid`: byte 2 is ASCII uppercase. -/
def ChunkType.is_reserved_bit_valid (t : ChunkType) : Bool :=
  isAsciiUppercase t.b2

/-- `ChunkType::is_safe_to_copy`: byte 3 is ASCII **lowercase**. -/
def ChunkType.is_safe_to_copy (t : ChunkType) : Bool :=
  isAsciiLowercase t.b3

/-- `ChunkType::is_valid`: explicit alphabetic recheck AND reserved bit valid. -/
def ChunkType.is_valid (t : ChunkType) : Bool :=
  is_bytes_ascii_alphabetic t.bytes && t.is_reserved_bit_valid

/-!
## `Chunk` (src/chunk.rs)
-/

/-- The `Chunk` struct: chunk type, payload bytes, stored CRC. -/
structure Chunk where
  chunk_type : ChunkType
  data : List Nat
  crc : Nat
deriving DecidableEq, Repr

/-- Error kinds of `Chunk::try_from` (`impl TryFrom<&[u8]> for Chunk`):
`truncated` for the `read_exact` failures and the
`bail!("Chunk: Not enough bytes in the data field")` branch, `invalidTag` for
a `ChunkType::try_from` failure, `checksumMismatch` for
`bail!("Chunk: Crc check failed")`, and `panicOhNoes` for the
`panic!("OH NOES")` branch guarded by `data.len() != read_len`. -/
inductive ChunkError where
  | truncated
  | invalidTag
  | checksumMismatch
  | panicOhNoes
deriving DecidableEq, Repr

/-- `Chunk::new`: store the payload and the CRC of `chunk_type.bytes() ++ data`. -/
def Chunk.new (chunk_type : ChunkType) (data : List Nat) : Chunk :=
  { chunk_type := chunk_type, data := data, crc := crc32 (chunk_type.bytes ++ data) }

/-- `Chunk::length`: `self.data.len() as u32` (a truncating cast). -/
def Chunk.length (c : Chunk) : Nat :=
  c.data.length % 4294967296

/-- `Chunk::as_bytes`: BE length, tag bytes, payload, BE CRC. -/
def Chunk.as_bytes (c : Chunk) : List Nat :=
  u32ToBE (c.data.length % 4294967296) ++ c.chunk_type.bytes ++ c.data ++ u32ToBE c.crc

/-- `impl TryFrom<&[u8]> for Chunk`: read a 4-byte BE length, a 4-byte tag,
`length` payload bytes via `take(length).read_to_end` (which reads up to
`length` bytes and returns the count read), then a 4-byte BE CRC, and verify
the CRC over tag bytes ++ payload.  Trailing bytes after the CRC field are
not examined. -/
def Chunk.tryFrom (value : List Nat) : Except ChunkError Chunk :=
  match value with
  | b0 :: b1 :: b2 :: b3 :: rest =>
    let length := u32FromBE b0 b1 b2 b3
    match rest with
    | t0 :: t1 :: t2 :: t3 :: rest2 =>
      match ChunkType.tryFrom t0 t1 t2 t3 with
      | .error _ => .error .invalidTag
      | .ok chunk_type =>
        let data := rest2.take length
        let read_len := data.length
        if data.length ≠ length ∧ read_len ≠ length then .error .truncated
        else if data.length ≠ read_len then .error .panicOhNoes
        else
          match rest2.drop read_len with
          | c0 :: c1 :: c2 :: c3 :: _ =>
            let crc := u32FromBE c0 c1 c2 c3
            if crc ≠ crc32 ([t0, t1, t2, t3] ++ data) then .error .checksumMismatch
            else .ok { chunk_type := chunk_type, data := data, crc := crc }
          | _ => .error .truncated
    | _ => .error .truncated
  | _ => .error .truncated

instance {ε α : Type} [DecidableEq ε] [DecidableEq α] : DecidableEq (Except ε α) := fun x y =>
  match x, y with
  | .ok a, .ok b =>
    if h : a = b then .isTrue (by rw [h]) else .isFalse (fun he => h (Except.ok.inj he))
  | .error a, .error b =>
    if h : a = b then .isTrue (by rw [h]) else .isFalse (fun he => h (Except.error.inj he))
  | .ok _, .error _ => .isFalse (fun he => Except.noConfusion he)
  | .error _, .ok _ => .isFalse (fun he => Except.noConfusion he)

/-- `Except.isOk` for this development: did the computation succeed? -/
def exceptIsOk {ε α : Type} : Except ε α → Bool
  | .ok _ => true
  | .error _ => false

/-- Does a `Chunk::try_from` result correspond to reaching the
`panic!("OH NOES")` branch? -/
def isPanicResult : Except ChunkError Chunk → Bool
  | .error .panicOhNoes => true
  | _ => false

/-!
## Concrete test vectors (from the repository's own tests)
-/

/-- The tag `"RuSt"` as bytes. -/
def ctRuSt : ChunkType := ⟨82, 117, 83, 116⟩

/-- The payload `"This is where your secret message will be!"` as bytes. -/
def msgBytes : List Nat :=
  [84, 104, 105, 115, 32, 105, 115, 32, 119, 104, 101, 114, 101, 32, 121, 111,
   117, 114, 32, 115, 101, 99, 114, 101, 116, 32, 109, 101, 115, 115, 97, 103,
   101, 32, 119, 105, 108, 108, 32, 98, 101, 33]

/-- The tag `"Rust"` as bytes (lowercase `s` in position 2). -/
def ctRust : ChunkType := ⟨82, 117, 115, 116⟩

/-- The byte string `"RuSt"`. -/
def strRuSt : List Nat := [82, 117, 83, 116]

/-- The byte string `"Rust"`. -/
def strRust : List Nat := [82, 117, 115, 116]

/-- The serialized test chunk from the repository's `testing_chunk` fixture:
length 42, tag `"RuSt"`, the secret-message payload, CRC 2882656334. -/
def testBuffer : List Nat :=
  [0, 0, 0, 42] ++ strRuSt ++ msgBytes ++ u32ToBE 2882656334

/-- The chunk that `testing_chunk` parses to. -/
def testChunk : Chunk := ⟨ctRuSt, msgBytes, 2882656334⟩

/-- A payload of 2^32 zero bytes: its length does not survive the
`data.len() as u32` cast. -/
def bigPayload : List Nat := List.replicate 4294967296 0

/-- The chunk with tag `"RuSt"` and 2^32 zero payload bytes. -/
def bigChunk : Chunk := Chunk.new ctRuSt bigPayload

/-- Tag `"AAAA"`. -/
def ctAAAA : ChunkType := ⟨65, 65, 65, 65⟩

/-- A 70-byte payload engineered so that deleting byte 3 (the low length
byte) of the serialized chunk leaves a buffer that still parses: 66 `'A'`
bytes followed by the big-endian CRC of 69 `'A'` bytes. -/
def dropBytePayload : List Nat :=
  List.replicate 66 65 ++ u32ToBE (crc32 (List.replicate 69 65))

/-- The chunk whose serialized form survives deletion of byte 3. -/
def dropByteChunk : Chunk := Chunk.new ctAAAA dropBytePayload

/-- A minimal constructed chunk: tag `"RuSt"`, empty payload. -/
def testTagChunk : Chunk := Chunk.new ctRuSt []



/-!
## Helper lemmas
-/

/-- Sanity anchor for the CRC embedding: the CRC-32/ISO-HDLC check value over
`"123456789"`. -/
theorem crc32_checkValue : crc32 [49, 50, 51, 52, 53, 54, 55, 56, 57] = 0xCBF43926 := by
  decide

/-- The repository's own test vector: CRC over `"RuSt"` ++ the secret message. -/
theorem crc32_testVector : crc32 (ctRuSt.bytes ++ msgBytes) = 2882656334 := by
  decide

/-- `u32ToBE` always emits exactly 4 bytes. -/
theorem u32ToBE_length (n : Nat) : (u32ToBE n).length = 4 := rfl

/-- Reading back the big-endian encoding recovers the value modulo 2^32. -/
theorem u32FromBE_u32ToBE (n : Nat) :
    u32FromBE (n / 16777216 % 256) (n / 65536 % 256) (n / 256 % 256) (n % 256)
      = n % 4294967296 := by
  unfold u32FromBE
  omega

/-- ASCII letters are bytes. -/
theorem isAsciiAlphabetic_lt {b : Nat} (h : isAsciiAlphabetic b = true) : b < 256 := by
  simp only [isAsciiAlphabetic, isAsciiUppercase, isAsciiLowercase, Bool.or_eq_true,
    Bool.and_eq_true, decide_eq_true_eq] at h
  omega

/-- For an ASCII letter, uppercase and lowercase are complementary. -/
theorem upper_eq_not_lower_of_alpha {b : Nat} (h : isAsciiAlphabetic b = true) :
    isAsciiUppercase b = !isAsciiLowercase b := by
  cases hu : isAsciiUppercase b <;> cases hl : isAsciiLowercase b <;>
      simp_all [isAsciiAlphabetic, isAsciiUppercase, isAsciiLowercase] <;> omega

/-- The source's flag-clearing loop computes `List.all`. -/
theorem foldl_alpha_flag (l : List Nat) (acc : Bool) :
    l.foldl (fun res byte => if !(isAsciiAlphabetic byte) then false else res) acc
      = (acc && l.all isAsciiAlphabetic) := by
  induction l generalizing acc with
  | nil => simp
  | cons b t ih =>
    simp only [List.foldl_cons, List.all_cons, ih]
    cases hb : isAsciiAlphabetic b <;> simp

/-- `is_bytes_ascii_alphabetic` is the all-alphabetic test. -/
theorem is_bytes_ascii_alphabetic_eq_all (l : List Nat) :
    is_bytes_ascii_alphabetic l = l.all isAsciiAlphabetic := by
  unfold is_bytes_ascii_alphabetic
  rw [foldl_alpha_flag]
  simp

/-- `ChunkType::try_from` succeeds on all-alphabetic byte quadruples and
returns them unchanged. -/
theorem ChunkType.tryFrom_ok {b0 b1 b2 b3 : Nat}
    (h : is_bytes_ascii_alphabetic [b0, b1, b2, b3] = true) :
    ChunkType.tryFrom b0 b1 b2 b3 = .ok ⟨b0, b1, b2, b3⟩ := by
  unfold ChunkType.tryFrom
  rw [h]
  rfl

/-- A successful `ChunkType::try_from` stores exactly the input bytes. -/
theorem ChunkType.eq_of_tryFrom_ok {b0 b1 b2 b3 : Nat} {t : ChunkType}
    (h : ChunkType.tryFrom b0 b1 b2 b3 = .ok t) : t = ⟨b0, b1, b2, b3⟩ := by
  unfold ChunkType.tryFrom at h
  split at h
  · cases h
  · cases h
    rfl

/-- A successful `ChunkType::try_from` implies the bytes are alphabetic. -/
theorem alpha_of_tryFrom_ok {b0 b1 b2 b3 : Nat} {t : ChunkType}
    (h : ChunkType.tryFrom b0 b1 b2 b3 = .ok t) :
    is_bytes_ascii_alphabetic [b0, b1, b2, b3] = true := by
  unfold ChunkType.tryFrom at h
  split at h
  · cases h
  · next hcond => simpa using hcond

/-- One CRC bit-step keeps the state below 2^32. -/
theorem crc32Round_lt {c : Nat} (h : c < 4294967296) : crc32Round c < 4294967296 := by
  have h1 : c >>> 1 < 4294967296 := by
    rw [Nat.shiftRight_eq_div_pow, Nat.pow_one]
    omega
  unfold crc32Round
  split
  · have e : (4294967296 : Nat) = 2 ^ 32 := by norm_num
    rw [e] at h1 ⊢
    exact Nat.xor_lt_two_pow h1 (by norm_num)
  · exact h1

/-- Folding a byte into the CRC state keeps it below 2^32. -/
theorem crc32UpdateByte_lt {c b : Nat} (hc : c < 4294967296) (hb : b < 256) :
    crc32UpdateByte c b < 4294967296 := by
  have hx : c ^^^ b < 4294967296 := by
    have e : (4294967296 : Nat) = 2 ^ 32 := by norm_num
    rw [e]
    exact Nat.xor_lt_two_pow (e ▸ hc) (by omega)
  unfold crc32UpdateByte
  exact crc32Round_lt (crc32Round_lt (crc32Round_lt (crc32Round_lt
    (crc32Round_lt (crc32Round_lt (crc32Round_lt (crc32Round_lt hx)))))))

/-- The CRC fold keeps the state below 2^32 for byte inputs. -/
theorem crc32_foldl_lt {l : List Nat} (hl : ∀ b ∈ l, b < 256) :
    ∀ {c : Nat}, c < 4294967296 → l.foldl crc32UpdateByte c < 4294967296 := by
  induction l with
  | nil => intro c hc; simpa using hc
  | cons b t ih =>
    intro c hc
    simp only [List.foldl_cons]
    exact ih (fun x hx => hl x (List.mem_cons_of_mem _ hx))
      (crc32UpdateByte_lt hc (hl b (List.mem_cons_self _ _)))

/-- `crc32` of a byte list is a `u32` value. -/
theorem crc32_lt {l : List Nat} (hl : ∀ b ∈ l, b < 256) : crc32 l < 4294967296 := by
  unfold crc32
  have e : (4294967296 : Nat) = 2 ^ 32 := by norm_num
  rw [e]
  exact Nat.xor_lt_two_pow (e ▸ crc32_foldl_lt hl (by norm_num)) (by norm_num)

/-- The first (most significant) byte of a big-endian `u32` encoding. -/
theorem u32ToBE_getD_zero (c : Nat) : (u32ToBE c).getD 0 0 = c / 16777216 % 256 := rfl

/-- Adding one modulo 256 always changes the first byte of a big-endian
`u32` encoding. -/
theorem u32ToBE_getD_zero_succ_ne (c : Nat) :
    ((u32ToBE c).getD 0 0 + 1) % 256 ≠ (u32ToBE c).getD 0 0 := by
  rw [u32ToBE_getD_zero]
  omega

/-- Every byte of an all-alphabetic list is below 256. -/
theorem bytes_lt_of_alpha {l : List Nat} (h : is_bytes_ascii_alphabetic l = true) :
    ∀ b ∈ l, b < 256 := by
  rw [is_bytes_ascii_alphabetic_eq_all] at h
  intro b hb
  exact isAsciiAlphabetic_lt (List.all_eq_true.mp h b hb)

/-- `Chunk::try_from` on a well-formed serialized image: 4-byte BE payload
length, alphabetic tag, payload, then the matching BE CRC.  It succeeds and
reconstructs exactly the tag, payload and CRC. -/
theorem tryFrom_wellFormed (t0 t1 t2 t3 : Nat) (d : List Nat) (crc : Nat)
    (halpha : is_bytes_ascii_alphabetic [t0, t1, t2, t3] = true)
    (hlen : d.length < 4294967296) (hcrc : crc < 4294967296)
    (hmatch : crc = crc32 ([t0, t1, t2, t3] ++ d)) :
    Chunk.tryFrom (u32ToBE d.length ++ [t0, t1, t2, t3] ++ d ++ u32ToBE crc)
      = .ok ⟨⟨t0, t1, t2, t3⟩, d, crc⟩ := by
  have hmod : d.length % 4294967296 = d.length := Nat.mod_eq_of_lt hlen
  have hmodc : crc % 4294967296 = crc := Nat.mod_eq_of_lt hcrc
  simp only [u32ToBE, List.cons_append, List.nil_append]
  simp only [Chunk.tryFrom]
  rw [ChunkType.tryFrom_ok halpha]
  simp only [u32FromBE_u32ToBE, hmod, hmodc, List.take_left, List.drop_left]
  simp [hmatch]

/-- `Chunk::as_bytes` of a freshly constructed chunk, written out. -/
theorem as_bytes_new (ct : ChunkType) (d : List Nat) :
    (Chunk.new ct d).as_bytes
      = u32ToBE (d.length % 4294967296) ++ ct.bytes ++ d
        ++ u32ToBE (crc32 (ct.bytes ++ d)) := rfl

/-- `Chunk::length` of a freshly constructed chunk. -/
theorem length_new (ct : ChunkType) (d : List Nat) :
    (Chunk.new ct d).length = d.length % 4294967296 := rfl

/-- The serialized size of a freshly constructed chunk is 12 plus the true
payload length (not the truncated `length()`). -/
theorem as_bytes_length_new (ct : ChunkType) (d : List Nat) :
    (Chunk.new ct d).as_bytes.length = 12 + d.length := by
  rw [as_bytes_new]
  simp only [List.length_append, u32ToBE, ChunkType.bytes, List.length_cons,
    List.length_nil]
  omega

/-- Like `tryFrom_wellFormed`, but with arbitrary trailing bytes after the
CRC field: `Chunk::try_from` never examines bytes beyond the CRC field, so
the parse still succeeds and returns the same chunk. -/
theorem tryFrom_wellFormed_extra (t0 t1 t2 t3 : Nat) (d : List Nat) (crc : Nat)
    (extra : List Nat)
    (halpha : is_bytes_ascii_alphabetic [t0, t1, t2, t3] = true)
    (hlen : d.length < 4294967296) (hcrc : crc < 4294967296)
    (hmatch : crc = crc32 ([t0, t1, t2, t3] ++ d)) :
    Chunk.tryFrom (u32ToBE d.length ++ [t0, t1, t2, t3] ++ d ++ u32ToBE crc ++ extra)
      = .ok ⟨⟨t0, t1, t2, t3⟩, d, crc⟩ := by
  have hmod : d.length % 4294967296 = d.length := Nat.mod_eq_of_lt hlen
  have hmodc : crc % 4294967296 = crc := Nat.mod_eq_of_lt hcrc
  simp only [u32ToBE, List.cons_append, List.nil_append, List.append_assoc]
  simp only [Chunk.tryFrom]
  rw [ChunkType.tryFrom_ok halpha]
  simp only [u32FromBE_u32ToBE, hmod, hmodc, List.take_left, List.drop_left]
  simp [hmatch]

/-- Serialization of a chunk over a zero-filled payload whose length is a
multiple of 2^32: the emitted length field is all zeros and the buffer starts
with the four zero length bytes followed by the tag bytes. -/
theorem as_bytes_new_replicate (ct : ChunkType) (k : Nat)
    (hmod : (4 + k) % 4294967296 = 0) :
    (Chunk.new ct (List.replicate (4 + k) 0)).as_bytes
      = 0 :: 0 :: 0 :: 0 :: ct.b0 :: ct.b1 :: ct.b2 :: ct.b3 ::
        (List.replicate (4 + k) 0
          ++ u32ToBE (crc32 (ct.bytes ++ List.replicate (4 + k) 0))) := by
  rw [as_bytes_new, List.length_replicate, hmod,
    show u32ToBE 0 = [0, 0, 0, 0] from rfl]
  simp only [ChunkType.bytes, List.cons_append, List.nil_append]

/-- Parsing a buffer whose length field is zero, whose tag is alphabetic and
whose following bytes begin with at least four zeros fails with a checksum
mismatch whenever the CRC of the tag alone is nonzero: the parser reads an
empty payload, consumes four zero bytes as the CRC field, and compares 0
against the tag-only CRC. -/
theorem tryFrom_zeroLen_replicate (t0 t1 t2 t3 k : Nat) (rest : List Nat)
    (halpha : is_bytes_ascii_alphabetic [t0, t1, t2, t3] = true)
    (hcrc : crc32 [t0, t1, t2, t3] ≠ 0) :
    Chunk.tryFrom (0 :: 0 :: 0 :: 0 :: t0 :: t1 :: t2 :: t3 ::
      (List.replicate (4 + k) 0 ++ rest)) = .error .checksumMismatch := by
  simp only [Chunk.tryFrom]
  rw [ChunkType.tryFrom_ok halpha]
  simp only [show u32FromBE 0 0 0 0 = 0 from rfl, List.take_zero, List.length_nil,
    List.drop_zero]
  rw [if_neg (by simp)]
  rw [if_neg (by simp)]
  rw [List.replicate_add, show List.replicate 4 (0 : Nat) = [0, 0, 0, 0] from rfl]
  simp only [List.cons_append, List.nil_append, List.append_nil,
    show u32FromBE 0 0 0 0 = 0 from rfl]
  rw [if_pos (Ne.symm hcrc)]

/-- `Chunk::try_from` on a buffer shaped like a serialized chunk but whose
4-byte CRC field decodes to a value different from the CRC over
tag bytes ++ payload fails with a checksum mismatch. -/
theorem tryFrom_badCrc (t0 t1 t2 t3 : Nat) (d : List Nat) (c0 c1 c2 c3 : Nat)
    (halpha : is_bytes_ascii_alphabetic [t0, t1, t2, t3] = true)
    (hlen : d.length < 4294967296)
    (hne : u32FromBE c0 c1 c2 c3 ≠ crc32 ([t0, t1, t2, t3] ++ d)) :
    Chunk.tryFrom (u32ToBE d.length ++ [t0, t1, t2, t3] ++ d ++ [c0, c1, c2, c3])
      = .error .checksumMismatch := by
  have hmod : d.length % 4294967296 = d.length := Nat.mod_eq_of_lt hlen
  simp only [u32ToBE, List.cons_append, List.nil_append]
  simp only [Chunk.tryFrom]
  rw [ChunkType.tryFrom_ok halpha]
  simp only [u32FromBE_u32ToBE, hmod, List.take_left, List.drop_left]
  rw [if_neg (by simp), if_neg (by simp), if_pos hne]

/-- `Chunk::try_from` on a serialized chunk with one byte deleted at offset
`k + 8` (inside the payload or the CRC field): the payload read still
consumes `length` bytes, leaving only 3 bytes for the 4-byte CRC field, so
the parse fails with `Truncated`. -/
theorem tryFrom_eraseIdx_payload (t0 t1 t2 t3 : Nat) (d : List Nat) (crc k : Nat)
    (halpha : is_bytes_ascii_alphabetic [t0, t1, t2, t3] = true)
    (hlen : d.length < 4294967296) (hk : k < d.length + 4) :
    Chunk.tryFrom ((u32ToBE d.length ++ [t0, t1, t2, t3] ++ d
      ++ u32ToBE crc).eraseIdx (k + 8)) = .error .truncated := by
  have hmod : d.length % 4294967296 = d.length := Nat.mod_eq_of_lt hlen
  have hR : ((d ++ u32ToBE crc).eraseIdx k).length = d.length + 3 := by
    rw [List.length_eraseIdx_of_lt (by simp [u32ToBE_length]; omega)]
    simp [u32ToBE_length]
  have htake : (((d ++ u32ToBE crc).eraseIdx k).take d.length).length = d.length :=
    List.length_take_of_le (by omega)
  have hdrop : (((d ++ u32ToBE crc).eraseIdx k).drop d.length).length = 3 := by
    rw [List.length_drop, hR]
    omega
  obtain ⟨a, b, c, habc⟩ := List.length_eq_three.mp hdrop
  rw [show u32ToBE d.length = [d.length / 16777216 % 256, d.length / 65536 % 256,
    d.length / 256 % 256, d.length % 256] from rfl]
  simp only [List.cons_append, List.nil_append, List.eraseIdx_cons_succ]
  simp only [Chunk.tryFrom]
  rw [ChunkType.tryFrom_ok halpha]
  simp only [u32FromBE_u32ToBE, hmod]
  rw [if_neg (by simp [htake]), if_neg (by simp), htake, habc]

/-- The checksum-corruption escape at a payload whose length is a multiple
of 2^32: take a payload whose first four bytes spell the big-endian CRC of
the tag alone, followed by `k` zero bytes with `4 + k` a multiple of 2^32.
The `as u32` cast makes the emitted length field zero, so a parser of the
serialized form reads an empty payload and takes the first four payload
bytes as the CRC field — which match the CRC of the tag alone.  Overwriting
any value at the true checksum field (offset `8 + payload length`, inside
the trailing bytes the parser never reads) therefore leaves a buffer that
still parses successfully. -/
theorem tryFrom_set_pastCrc (ct : ChunkType) (k v : Nat)
    (halpha : is_bytes_ascii_alphabetic ct.bytes = true)
    (hmod : (4 + k) % 4294967296 = 0) :
    Chunk.tryFrom (((Chunk.new ct (u32ToBE (crc32 ct.bytes)
        ++ List.replicate k 0)).as_bytes).set
      (8 + (u32ToBE (crc32 ct.bytes) ++ List.replicate k 0).length + 0) v)
      = .ok ⟨ct, [], crc32 ct.bytes⟩ := by
  obtain ⟨b0, b1, b2, b3⟩ := ct
  simp only [ChunkType.bytes] at halpha ⊢
  have hcrclt : crc32 [b0, b1, b2, b3] < 4294967296 :=
    crc32_lt (bytes_lt_of_alpha halpha)
  have hplen : (u32ToBE (crc32 [b0, b1, b2, b3]) ++ List.replicate k 0).length
      = 4 + k := by
    rw [List.length_append, List.length_replicate, u32ToBE_length]
  rw [as_bytes_new, hplen, hmod,
    show ChunkType.bytes ⟨b0, b1, b2, b3⟩ = [b0, b1, b2, b3] from rfl]
  have hs : (u32ToBE 0 ++ [b0, b1, b2, b3]
      ++ (u32ToBE (crc32 [b0, b1, b2, b3]) ++ List.replicate k 0)).length
      = 8 + (4 + k) := by
    simp only [List.length_append, u32ToBE_length, List.length_cons,
      List.length_nil, List.length_replicate]
    try omega
  rw [@List.set_append_right Nat
      (u32ToBE 0 ++ [b0, b1, b2, b3]
        ++ (u32ToBE (crc32 [b0, b1, b2, b3]) ++ List.replicate k 0))
      (u32ToBE (crc32 ([b0, b1, b2, b3]
        ++ (u32ToBE (crc32 [b0, b1, b2, b3]) ++ List.replicate k 0))))
      (8 + (4 + k) + 0) v (by omega), hs,
    show 8 + (4 + k) + 0 - (8 + (4 + k)) = 0 from by omega]
  exact tryFrom_wellFormed_extra b0 b1 b2 b3 [] (crc32 [b0, b1, b2, b3])
    (List.replicate k 0
      ++ (u32ToBE (crc32 ([b0, b1, b2, b3]
        ++ (u32ToBE (crc32 [b0, b1, b2, b3]) ++ List.replicate k 0)))).set 0 v)
    halpha (by decide) hcrclt (by rw [List.append_nil])

/-!
## Claim theorems
-/

/-- C9: constructing a chunk with tag `"RuSt"` and the secret-message payload
yields checksum 2882656334, which is the CRC-32/ISO-HDLC of the 4 tag bytes
concatenated with the payload (length and checksum fields excluded). -/
theorem C9_checksum_determinism :
    (Chunk.new ctRuSt msgBytes).crc = 2882656334 ∧
    crc32 (ctRuSt.bytes ++ msgBytes) = 2882656334 := by
  constructor <;> decide

/-- C4: the tag built from `"RuSt"` is critical, not public, reserved-valid
and safe-to-copy; the tag built from `"Rust"` has an invalid reserved bit and
is not valid; and `is_valid` is the explicit alphabetic recheck AND the
reserved-bit test. -/
theorem C4_flag_examples :
    (∃ t, ChunkType.fromStr strRuSt = .ok t ∧
      t.is_critical = true ∧ t.is_public = false ∧
      t.is_reserved_bit_valid = true ∧ t.is_safe_to_copy = true) ∧
    (∃ t, ChunkType.fromStr strRust = .ok t ∧
      t.is_reserved_bit_valid = false ∧ t.is_valid = false) ∧
    (∀ t : ChunkType,
      t.is_valid = (is_bytes_ascii_alphabetic t.bytes && t.is_reserved_bit_valid)) :=
  ⟨⟨ctRuSt, by decide⟩, ⟨ctRust, by decide⟩, fun _ => rfl⟩

/-- C10: `Chunk::try_from` is total and never reaches the `panic!("OH NOES")`
branch: for every input it returns a chunk or a typed error, and the guard
`data.len() != read_len` is false on every path because `read_to_end` returns
exactly the number of bytes it appended to the (initially empty) payload
vector. -/
theorem C10_parse_never_panics :
    ∀ value : List Nat, isPanicResult (Chunk.tryFrom value) = false := by
  intro value
  have h : Chunk.tryFrom value ≠ .error .panicOhNoes := by
    intro h
    unfold Chunk.tryFrom at h
    repeat' split at h
    all_goals simp_all
    all_goals repeat' split at h
    all_goals simp_all
  cases hv : Chunk.tryFrom value with
  | ok c => rfl
  | error e =>
    cases e
    · rfl
    · rfl
    · rfl
    · exact absurd hv h

/-- C8: a 4-byte sequence of ASCII letters is accepted by
`ChunkType::try_from` with the bytes stored unchanged; a 4-byte sequence with
at least one non-letter is rejected with `InvalidTag`. -/
theorem C8_tag_construction :
    (∀ b0 b1 b2 b3 : Nat, (∀ b ∈ [b0, b1, b2, b3], isAsciiAlphabetic b = true) →
      ∃ t, ChunkType.tryFrom b0 b1 b2 b3 = .ok t ∧ t.bytes = [b0, b1, b2, b3]) ∧
    (∀ b0 b1 b2 b3 : Nat, (∃ b ∈ [b0, b1, b2, b3], isAsciiAlphabetic b = false) →
      ChunkType.tryFrom b0 b1 b2 b3 = .error .invalidTag) := by
  constructor
  · intro b0 b1 b2 b3 h
    have halpha : is_bytes_ascii_alphabetic [b0, b1, b2, b3] = true := by
      rw [is_bytes_ascii_alphabetic_eq_all]
      simpa [List.all_eq_true] using h
    exact ⟨⟨b0, b1, b2, b3⟩, ChunkType.tryFrom_ok halpha, rfl⟩
  · intro b0 b1 b2 b3 h
    have halpha : is_bytes_ascii_alphabetic [b0, b1, b2, b3] = false := by
      rw [is_bytes_ascii_alphabetic_eq_all]
      obtain ⟨b, hb, hfalse⟩ := h
      simp only [List.all_eq_false]
      exact ⟨b, hb, by simp [hfalse]⟩
    unfold ChunkType.tryFrom
    rw [halpha]
    rfl

/-- Witness for C8 at the concrete tags `"RuSt"` (accepted) and `"Ru1t"`
(rejected). -/
theorem C8_tag_construction_witness :
    (∀ b ∈ [82, 117, 83, 116], isAsciiAlphabetic b = true) ∧
    (∃ t, ChunkType.tryFrom 82 117 83 116 = .ok t ∧ t.bytes = [82, 117, 83, 116]) ∧
    (∃ b ∈ [82, 117, 49, 116], isAsciiAlphabetic b = false) ∧
    ChunkType.tryFrom 82 117 49 116 = .error .invalidTag :=
  ⟨by decide, C8_tag_construction.1 82 117 83 116 (by decide),
   by decide, C8_tag_construction.2 82 117 49 116 (by decide)⟩

/-- C1: every successfully constructed chunk satisfies the checksum
invariant: `Chunk::new` stores the CRC of tag bytes ++ payload, and a chunk
obtained from a successful `Chunk::try_from` has its stored CRC equal to the
CRC of its tag bytes ++ payload. -/
theorem C1_checksum_invariant :
    (∀ (ct : ChunkType) (d : List Nat), (Chunk.new ct d).crc = crc32 (ct.bytes ++ d)) ∧
    (∀ (value : List Nat) (c : Chunk), Chunk.tryFrom value = .ok c →
      c.crc = crc32 (c.chunk_type.bytes ++ c.data)) := by
  refine ⟨fun ct d => rfl, fun value c h => ?_⟩
  unfold Chunk.tryFrom at h
  simp only [ne_eq] at h
  repeat' split at h
  all_goals try exact Except.noConfusion h
  rename_i htag hcond htriv x c0 c1 c2 c3 tl hdrop hcrc
  rw [not_not] at hcrc
  injection h with h'
  subst h'
  have hct := ChunkType.eq_of_tryFrom_ok htag
  subst hct
  simpa [ChunkType.bytes] using hcrc

/-- Witness for C1's parse direction at the repository's test vector. -/
theorem C1_checksum_invariant_witness :
    Chunk.tryFrom testBuffer = .ok testChunk ∧
    testChunk.crc = crc32 (testChunk.chunk_type.bytes ++ testChunk.data) :=
  ⟨by decide, C1_checksum_invariant.2 testBuffer testChunk (by decide)⟩

/-- Counterexample for C3 as stated: for the tag `"RuSt"`, byte 3 (`'t'`) is
not uppercase, yet `is_safe_to_copy` returns `true` — the safe-to-copy
predicate tests lowercase, not uppercase. -/
theorem C3_flag_predicates_cex :
    ChunkType.is_safe_to_copy ctRuSt = true ∧ isAsciiUppercase 116 = false := by
  decide

/-- C3 (amended): for every TagCode (all four bytes ASCII letters),
`is_critical`, `is_public`, `is_reserved_valid` return true exactly when
byte 0, 1, 2 respectively is uppercase (false when lowercase), while
`is_safe_to_copy` returns true exactly when byte 3 is **lowercase** (false
when uppercase). -/
theorem C3_flag_predicates :
    ∀ t : ChunkType, is_bytes_ascii_alphabetic t.bytes = true →
      (t.is_critical = isAsciiUppercase t.b0 ∧ t.is_critical = !isAsciiLowercase t.b0) ∧
      (t.is_public = isAsciiUppercase t.b1 ∧ t.is_public = !isAsciiLowercase t.b1) ∧
      (t.is_reserved_bit_valid = isAsciiUppercase t.b2 ∧
        t.is_reserved_bit_valid = !isAsciiLowercase t.b2) ∧
      (t.is_safe_to_copy = isAsciiLowercase t.b3 ∧
        t.is_safe_to_copy = !isAsciiUppercase t.b3) := by
  intro t h
  rw [is_bytes_ascii_alphabetic_eq_all] at h
  simp only [ChunkType.bytes, List.all_cons, List.all_nil, Bool.and_true,
    Bool.and_eq_true] at h
  obtain ⟨h0, h1, h2, h3⟩ := h
  refine ⟨⟨rfl, ?_⟩, ⟨rfl, ?_⟩, ⟨rfl, ?_⟩, ⟨rfl, ?_⟩⟩
  · exact upper_eq_not_lower_of_alpha h0
  · exact upper_eq_not_lower_of_alpha h1
  · exact upper_eq_not_lower_of_alpha h2
  · rw [ChunkType.is_safe_to_copy, upper_eq_not_lower_of_alpha h3, Bool.not_not]

/-- Witness for the amended C3 at the tag `"RuSt"`. -/
theorem C3_flag_predicates_witness :
    is_bytes_ascii_alphabetic ctRuSt.bytes = true ∧
    ((ctRuSt.is_critical = isAsciiUppercase ctRuSt.b0 ∧
        ctRuSt.is_critical = !isAsciiLowercase ctRuSt.b0) ∧
      (ctRuSt.is_public = isAsciiUppercase ctRuSt.b1 ∧
        ctRuSt.is_public = !isAsciiLowercase ctRuSt.b1) ∧
      (ctRuSt.is_reserved_bit_valid = isAsciiUppercase ctRuSt.b2 ∧
        ctRuSt.is_reserved_bit_valid = !isAsciiLowercase ctRuSt.b2) ∧
      (ctRuSt.is_safe_to_copy = isAsciiLowercase ctRuSt.b3 ∧
        ctRuSt.is_safe_to_copy = !isAsciiUppercase ctRuSt.b3)) :=
  ⟨by decide, C3_flag_predicates ctRuSt (by decide)⟩

/-- Counterexample for C2 as stated: for the record with tag `"RuSt"` and a
payload of 2^32 zero bytes, the `data.len() as u32` cast makes the emitted
length field zero, so parsing the serialized form reads an empty payload,
takes four payload zero bytes as the CRC field, and fails with
`ChecksumMismatch` instead of reconstructing the record. -/
theorem C2_round_trip_cex :
    Chunk.tryFrom bigChunk.as_bytes = .error .checksumMismatch ∧
    exceptIsOk (Chunk.tryFrom bigChunk.as_bytes) = false := by
  have h : Chunk.tryFrom bigChunk.as_bytes = .error .checksumMismatch := by
    rw [show bigChunk = Chunk.new ctRuSt (List.replicate (4 + 4294967292) 0) from rfl,
      as_bytes_new_replicate ctRuSt 4294967292 (by norm_num)]
    exact tryFrom_zeroLen_replicate 82 117 83 116 4294967292 _ (by decide) (by decide)
  exact ⟨h, by rw [h]; rfl⟩

/-- C2 (amended): for every record satisfying the checksum invariant whose
payload is shorter than 2^32 bytes (and consists of bytes), parsing the
serialized form succeeds and reconstructs the record exactly — tag, payload
and checksum.  The length bound is forced by the `data.len() as u32` cast in
`Chunk::length`/`Chunk::as_bytes`. -/
theorem C2_round_trip (r : Chunk)
    (halpha : is_bytes_ascii_alphabetic r.chunk_type.bytes = true)
    (hinv : r.crc = crc32 (r.chunk_type.bytes ++ r.data))
    (hlen : r.data.length < 4294967296)
    (hbytes : ∀ b ∈ r.data, b < 256) :
    Chunk.tryFrom r.as_bytes = .ok r := by
  obtain ⟨⟨t0, t1, t2, t3⟩, d, crc⟩ := r
  simp only [ChunkType.bytes] at halpha hinv
  simp only at hlen hbytes
  have hcrclt : crc < 4294967296 := by
    rw [hinv]
    exact crc32_lt (by
      intro b hb
      rcases List.mem_append.mp hb with hb | hb
      · exact bytes_lt_of_alpha halpha b hb
      · exact hbytes b hb)
  have hbytes' : Chunk.as_bytes ⟨⟨t0, t1, t2, t3⟩, d, crc⟩
      = u32ToBE d.length ++ [t0, t1, t2, t3] ++ d ++ u32ToBE crc := by
    show u32ToBE (d.length % 4294967296) ++ [t0, t1, t2, t3] ++ d ++ u32ToBE crc = _
    rw [Nat.mod_eq_of_lt hlen]
  rw [hbytes']
  exact tryFrom_wellFormed t0 t1 t2 t3 d crc halpha hlen hcrclt hinv

/-- Witness for the amended C2 at the repository's test chunk. -/
theorem C2_round_trip_witness :
    is_bytes_ascii_alphabetic testChunk.chunk_type.bytes = true ∧
    testChunk.crc = crc32 (testChunk.chunk_type.bytes ++ testChunk.data) ∧
    testChunk.data.length < 4294967296 ∧
    (∀ b ∈ testChunk.data, b < 256) ∧
    Chunk.tryFrom testChunk.as_bytes = .ok testChunk :=
  ⟨by decide, by decide, by decide, by decide,
   C2_round_trip testChunk (by decide) (by decide) (by decide) (by decide)⟩

/-- Counterexample for C5 as stated: for the record with a 2^32-byte payload,
`length()` is 0 (the `as u32` cast truncates) while the emitted byte count is
12 + 2^32, so the total is strictly larger than `12 + length()`. -/
theorem C5_serialize_layout_cex :
    Chunk.length bigChunk = 0 ∧
    12 + Chunk.length bigChunk < bigChunk.as_bytes.length := by
  have h0 : Chunk.length bigChunk = 0 := by
    rw [show bigChunk = Chunk.new ctRuSt bigPayload from rfl, length_new,
      show bigPayload = List.replicate 4294967296 0 from rfl, List.length_replicate,
      Nat.mod_self]
  have h1 : bigChunk.as_bytes.length = 12 + 4294967296 := by
    rw [show bigChunk = Chunk.new ctRuSt bigPayload from rfl, as_bytes_length_new,
      show bigPayload = List.replicate 4294967296 0 from rfl, List.length_replicate]
  refine ⟨h0, ?_⟩
  rw [h0, h1]
  norm_num

/-- C5 (amended): `as_bytes` always emits, in order, the 4-byte BE encoding
of `length()`, the tag's 4 raw bytes, the payload verbatim, and the 4-byte BE
encoding of the stored CRC; and when the payload is shorter than 2^32 bytes
(so that the `as u32` cast is lossless) the total emitted byte count is
`12 + length()`. -/
theorem C5_serialize_layout :
    (∀ c : Chunk,
      c.as_bytes = u32ToBE c.length ++ c.chunk_type.bytes ++ c.data ++ u32ToBE c.crc) ∧
    (∀ c : Chunk, c.data.length < 4294967296 →
      c.as_bytes.length = 12 + c.length) := by
  constructor
  · intro c
    rfl
  · intro c hlen
    have h : c.length = c.data.length := Nat.mod_eq_of_lt hlen
    rw [Chunk.as_bytes, h]
    simp only [List.length_append, u32ToBE, ChunkType.bytes, List.length_cons,
      List.length_nil]
    omega

/-- Witness for C5's length clause at the repository's test chunk. -/
theorem C5_serialize_layout_witness :
    testChunk.data.length < 4294967296 ∧
    testChunk.as_bytes.length = 12 + testChunk.length :=
  ⟨by decide, C5_serialize_layout.2 testChunk (by decide)⟩

/-- Counterexample for C6 as stated: deleting byte 3 (the low byte of the
length field) from the serialized form of the chunk with tag `"AAAA"` and the
engineered 70-byte payload leaves a buffer that `Chunk::try_from` parses
**successfully** — it does not fail at all, let alone with `Truncated`.  The
shifted length field reads 65, the shifted tag is again `"AAAA"`, and four
payload bytes are consumed as a CRC field that happens to match. -/
theorem C6_truncation_cex :
    Chunk.tryFrom ((dropByteChunk.as_bytes).eraseIdx 3)
      = .ok ⟨ctAAAA, List.replicate 65 65, crc32 (List.replicate 69 65)⟩ ∧
    exceptIsOk (Chunk.tryFrom ((dropByteChunk.as_bytes).eraseIdx 3)) = true := by
  have hK : crc32 (List.replicate 69 (65 : Nat))
      = crc32 ([65, 65, 65, 65] ++ List.replicate 65 65) := by
    rw [show [65, 65, 65, 65] ++ List.replicate 65 (65 : Nat)
        = List.replicate 4 65 ++ List.replicate 65 65 from rfl, ← List.replicate_add]
  have hKlt : crc32 (List.replicate 69 (65 : Nat)) < 4294967296 :=
    crc32_lt (fun b hb => by rw [List.eq_of_mem_replicate hb]; norm_num)
  have h : Chunk.tryFrom ((dropByteChunk.as_bytes).eraseIdx 3)
      = .ok ⟨ctAAAA, List.replicate 65 65, crc32 (List.replicate 69 65)⟩ := by
    rw [show dropByteChunk = Chunk.new ctAAAA dropBytePayload from rfl, as_bytes_new,
      show dropBytePayload
        = List.replicate 66 65 ++ u32ToBE (crc32 (List.replicate 69 65)) from rfl]
    have hP : (List.replicate 66 (65 : Nat)
        ++ u32ToBE (crc32 (List.replicate 69 65))).length = 70 := by
      rw [List.length_append, List.length_replicate, u32ToBE_length]
    rw [hP, show (70 : Nat) % 4294967296 = 70 from rfl,
      show u32ToBE 70 = [0, 0, 0, 70] from rfl,
      show ChunkType.bytes ctAAAA = [65, 65, 65, 65] from rfl,
      show List.replicate 66 (65 : Nat) = 65 :: List.replicate 65 65 from rfl]
    simp only [List.cons_append, List.nil_append, List.append_assoc,
      List.eraseIdx_cons_succ, List.eraseIdx_cons_zero]
    exact tryFrom_wellFormed_extra 65 65 65 65 (List.replicate 65 65)
      (crc32 (List.replicate 69 65)) _ (by decide) (by simp) hKlt hK
  exact ⟨h, by rw [h]; rfl⟩

/-- C6 (amended): deleting one byte at any position `i` with
`8 ≤ i < 12 + payload length` (that is, anywhere in the payload or checksum
field) from the serialized form of a constructed record with alphabetic tag
and payload shorter than 2^32 bytes makes `Chunk::try_from` fail with
`Truncated`.  Deletions inside the length or tag fields (`i < 8`) may fail
with a different error or even succeed, as the counterexample shows. -/
theorem C6_truncation (ct : ChunkType) (d : List Nat) (i : Nat)
    (halpha : is_bytes_ascii_alphabetic ct.bytes = true)
    (hlen : d.length < 4294967296)
    (hi8 : 8 ≤ i) (hi : i < 12 + d.length) :
    Chunk.tryFrom (((Chunk.new ct d).as_bytes).eraseIdx i) = .error .truncated := by
  obtain ⟨b0, b1, b2, b3⟩ := ct
  obtain ⟨k, rfl⟩ : ∃ k, i = k + 8 := ⟨i - 8, by omega⟩
  rw [as_bytes_new, Nat.mod_eq_of_lt hlen,
    show ChunkType.bytes ⟨b0, b1, b2, b3⟩ = [b0, b1, b2, b3] from rfl]
  exact tryFrom_eraseIdx_payload b0 b1 b2 b3 d _ k halpha hlen (by omega)

/-- Witness for the amended C6: tag `"RuSt"`, empty payload, deleting the
first checksum byte (position 8). -/
theorem C6_truncation_witness :
    is_bytes_ascii_alphabetic ctRuSt.bytes = true ∧
    (List.length ([] : List Nat) < 4294967296 ∧ 8 ≤ 8 ∧ 8 < 12 + List.length ([] : List Nat)) ∧
    Chunk.tryFrom (((Chunk.new ctRuSt []).as_bytes).eraseIdx 8) = .error .truncated :=
  ⟨by decide, by decide,
   C6_truncation ctRuSt [] 8 (by decide) (by decide) (by decide) (by decide)⟩

/-- Counterexample for C7 as stated: take the record with tag `"RuSt"` and
the 2^32-byte payload whose first four bytes spell the big-endian CRC of the
tag alone, followed by zeros.  Replacing the first byte of the 4-byte
checksum field of its serialized form (position `8 + payload length`) with a
different value (that byte plus one, modulo 256) leaves a buffer that parses
**successfully**: the truncated length field reads 0, the parser takes the
first four payload bytes as the CRC field, they match the CRC of the tag
alone, and the corrupted real checksum field is never examined. -/
theorem C7_checksum_corruption_cex :
    ((u32ToBE (Chunk.new ctRuSt (u32ToBE (crc32 ctRuSt.bytes)
        ++ List.replicate 4294967292 0)).crc).getD 0 0 + 1) % 256
      ≠ (u32ToBE (Chunk.new ctRuSt (u32ToBE (crc32 ctRuSt.bytes)
        ++ List.replicate 4294967292 0)).crc).getD 0 0 ∧
    Chunk.tryFrom (((Chunk.new ctRuSt (u32ToBE (crc32 ctRuSt.bytes)
        ++ List.replicate 4294967292 0)).as_bytes).set
      (8 + (u32ToBE (crc32 ctRuSt.bytes) ++ List.replicate 4294967292 0).length + 0)
      (((u32ToBE (Chunk.new ctRuSt (u32ToBE (crc32 ctRuSt.bytes)
        ++ List.replicate 4294967292 0)).crc).getD 0 0 + 1) % 256))
      = .ok ⟨ctRuSt, [], crc32 ctRuSt.bytes⟩ ∧
    exceptIsOk (Chunk.tryFrom (((Chunk.new ctRuSt (u32ToBE (crc32 ctRuSt.bytes)
        ++ List.replicate 4294967292 0)).as_bytes).set
      (8 + (u32ToBE (crc32 ctRuSt.bytes) ++ List.replicate 4294967292 0).length + 0)
      (((u32ToBE (Chunk.new ctRuSt (u32ToBE (crc32 ctRuSt.bytes)
        ++ List.replicate 4294967292 0)).crc).getD 0 0 + 1) % 256)))
      = true := by
  have h := tryFrom_set_pastCrc ctRuSt 4294967292
    (((u32ToBE (Chunk.new ctRuSt (u32ToBE (crc32 ctRuSt.bytes)
      ++ List.replicate 4294967292 0)).crc).getD 0 0 + 1) % 256)
    (by decide) (show (4 + 4294967292) % 4294967296 = 0 from rfl)
  exact ⟨u32ToBE_getD_zero_succ_ne _, h, by rw [h]; rfl⟩

/-- C7 (amended): for every record satisfying the checksum invariant, with
alphabetic tag and byte payload shorter than 2^32 bytes (the bound forced by
the `as u32` length cast, as the counterexample shows), replacing any single
byte of the 4-byte checksum field of the serialized form with a different
byte value makes `Chunk::try_from` fail with `ChecksumMismatch`. -/
theorem C7_checksum_corruption (r : Chunk) (j v : Nat)
    (halpha : is_bytes_ascii_alphabetic r.chunk_type.bytes = true)
    (hinv : r.crc = crc32 (r.chunk_type.bytes ++ r.data))
    (hlen : r.data.length < 4294967296)
    (hbytes : ∀ b ∈ r.data, b < 256)
    (hj : j < 4) (hv : v < 256)
    (hne : v ≠ (u32ToBE r.crc).getD j 0) :
    Chunk.tryFrom (r.as_bytes.set (8 + r.data.length + j) v)
      = .error .checksumMismatch := by
  obtain ⟨⟨t0, t1, t2, t3⟩, d, crc⟩ := r
  simp only [ChunkType.bytes] at halpha hinv
  simp only at hlen hbytes hne ⊢
  subst hinv
  have hClt : crc32 ([t0, t1, t2, t3] ++ d) < 4294967296 := by
    refine crc32_lt ?_
    intro b hb
    rcases List.mem_append.mp hb with hb | hb
    · exact bytes_lt_of_alpha halpha b hb
    · exact hbytes b hb
  have hset : (Chunk.as_bytes ⟨⟨t0, t1, t2, t3⟩, d, crc32 ([t0, t1, t2, t3] ++ d)⟩).set
        (8 + d.length + j) v
      = u32ToBE d.length ++ [t0, t1, t2, t3] ++ d
        ++ (u32ToBE (crc32 ([t0, t1, t2, t3] ++ d))).set j v := by
    rw [show Chunk.as_bytes ⟨⟨t0, t1, t2, t3⟩, d, crc32 ([t0, t1, t2, t3] ++ d)⟩
        = u32ToBE (d.length % 4294967296) ++ [t0, t1, t2, t3] ++ d
          ++ u32ToBE (crc32 ([t0, t1, t2, t3] ++ d)) from rfl,
      Nat.mod_eq_of_lt hlen]
    have hs : (u32ToBE d.length ++ [t0, t1, t2, t3] ++ d).length = 8 + d.length := by
      simp only [List.length_append, u32ToBE_length, List.length_cons, List.length_nil]
      try omega
    have happ := @List.set_append_right Nat (u32ToBE d.length ++ [t0, t1, t2, t3] ++ d)
      (u32ToBE (crc32 ([t0, t1, t2, t3] ++ d))) (8 + d.length + j) v (by omega)
    rw [happ, hs, show 8 + d.length + j - (8 + d.length) = j from by omega]
  rw [hset]
  set C := crc32 ([t0, t1, t2, t3] ++ d) with hC
  interval_cases j <;>
    simp only [u32ToBE, List.getD_cons_zero, List.getD_cons_succ,
      List.set_cons_zero, List.set_cons_succ] at hne ⊢ <;>
    refine tryFrom_badCrc t0 t1 t2 t3 d _ _ _ _ halpha hlen ?_ <;>
    · simp only [u32FromBE]
      omega

/-- Witness for C7: tag `"RuSt"`, empty payload, first checksum byte set
to 0. -/
theorem C7_checksum_corruption_witness :
    is_bytes_ascii_alphabetic testTagChunk.chunk_type.bytes = true ∧
    testTagChunk.crc = crc32 (testTagChunk.chunk_type.bytes ++ testTagChunk.data) ∧
    (0 : Nat) ≠ (u32ToBE testTagChunk.crc).getD 0 0 ∧
    Chunk.tryFrom (testTagChunk.as_bytes.set (8 + testTagChunk.data.length + 0) 0)
      = .error .checksumMismatch :=
  ⟨by decide, by decide, by decide,
   C7_checksum_corruption testTagChunk 0 0 (by decide) (by decide) (by decide)
     (by decide) (by decide) (by decide) (by decide)⟩

end Pngme
